import Mathlib

/-!
Verification of the PRT-7 decoder (`decodificador_prt7.cpp`).

The C++ program keeps two data structures: a circular doubly-linked list of
26 characters (`RotorDeMapeo`, nodes `NodoRotor`) and a doubly-linked list of
decoded characters (`ListaDeCarga`, nodes `NodoCarga`).  We embed the circular
list as the fixed list of node data (`ring`, in the order the constructor
created the nodes) together with the index of the node the `cabeza` pointer
points at; following a `siguiente` link is `sigIdx`, following a `previo` link
is `prevIdx`.  The `tamanio` field always equals `ring.length` (the
constructor increments it once per node), so it is not carried separately.
`ListaDeCarga` is embedded as the list of its node data in order.  C strings
are embedded as `List Char`; reading `linea[i]` at or past the terminating
NUL yields the NUL character (`getC`).  C++ `int` arithmetic is embedded on
`Int`; `%` on `int` is the truncating-division remainder, i.e. `Int.tmod`.
-/

/-- The node data of the rotor ring, in creation order: the constructor
`RotorDeMapeo::RotorDeMapeo` inserts `"ABCDEFGHIJKLMNOPQRSTUVWXYZ"` and closes
the circle. -/
def alfabeto : List Char := "ABCDEFGHIJKLMNOPQRSTUVWXYZ".toList

/-- Index reached by one `siguiente` step in a circular list of `len` nodes. -/
def sigIdx (len i : Nat) : Nat := (i + 1) % len

/-- Index reached by one `previo` step in a circular list of `len` nodes. -/
def prevIdx (len i : Nat) : Nat := (i + (len - 1)) % len

/-- State of class `RotorDeMapeo`: the circular list (node data in creation
order) and the index the `cabeza` pointer points at. -/
structure RotorDeMapeo where
  ring : List Char
  head : Nat
deriving DecidableEq

/-- The rotor built by the constructor: ring `A`..`Z`, `cabeza` on the first
node. -/
def RotorDeMapeo.inicial : RotorDeMapeo := ⟨alfabeto, 0⟩

/-- `RotorDeMapeo::rotar(int n)`: if the list is empty do nothing; otherwise
`pasos = n % tamanio` (C++ truncating remainder) and the head walks `pasos`
`siguiente` links when `pasos > 0`, `-pasos` `previo` links when `pasos < 0`,
nothing when `pasos == 0`. -/
def RotorDeMapeo.rotar (r : RotorDeMapeo) (n : Int) : RotorDeMapeo :=
  if r.ring.length = 0 then r
  else if 0 < n.tmod (r.ring.length : Int) then
    { r with head := (sigIdx r.ring.length)^[(n.tmod (r.ring.length : Int)).toNat] r.head }
  else if n.tmod (r.ring.length : Int) < 0 then
    { r with head := (prevIdx r.ring.length)^[(-(n.tmod (r.ring.length : Int))).toNat] r.head }
  else r

/-- `RotorDeMapeo::getMapeo(char in)`: non-uppercase input is returned
unchanged; otherwise walk `in - 'A'` `siguiente` steps from `cabeza` and
return the node data found there. -/
def RotorDeMapeo.getMapeo (r : RotorDeMapeo) (c : Char) : Char :=
  if c < 'A' ∨ 'Z' < c then c
  else r.ring.getD ((sigIdx r.ring.length)^[c.toNat - 'A'.toNat] r.head) 'A'

/-- `RotorDeMapeo::getCabeza()`: data of the head node, `'A'` when the list
is empty (`cabeza == nullptr`). -/
def RotorDeMapeo.getCabeza (r : RotorDeMapeo) : Char :=
  r.ring.getD r.head 'A'

/-- Applying a whole list of rotations in order; the rotor states reachable
by any sequence of rotations are exactly `rotarLista RotorDeMapeo.inicial ns`. -/
def rotarLista (r : RotorDeMapeo) : List Int → RotorDeMapeo
  | [] => r
  | n :: resto => rotarLista (r.rotar n) resto

/-- Read of `linea[i]` on the null-terminated buffer embedded as a list: at
or past the end of the stored characters the C string yields NUL. -/
def getC (l : List Char) (i : Nat) : Char := l.getD i (Char.ofNat 0)

/-- One iteration of the digit loop of `aEntero`:
`resultado = resultado * 10 + (str[i] - '0')`. -/
def pasoDigito (acc : Int) (c : Char) : Int :=
  acc * 10 + ((c.toNat : Int) - ('0'.toNat : Int))

/-- Digit loop of `aEntero`: `while (str[i] >= '0' && str[i] <= '9') ...`. -/
def aEnteroDigitos : List Char → Int → Int
  | [], acc => acc
  | c :: resto, acc =>
    if '0' ≤ c ∧ c ≤ '9' then aEnteroDigitos resto (pasoDigito acc c) else acc

/-- `aEntero(const char* str)`: a leading `'-'` sets a negative sign, a
leading `'+'` is skipped, then the digit loop runs and the result is
multiplied by the sign. -/
def aEntero (s : List Char) : Int :=
  if getC s 0 = '-' then -(aEnteroDigitos (s.drop 1) 0)
  else if getC s 0 = '+' then aEnteroDigitos (s.drop 1) 0
  else aEnteroDigitos s 0

/-- Boolean decimal-digit test, as the spec words it. -/
def esDigito (c : Char) : Bool := decide ('0' ≤ c ∧ c ≤ '9')

/-- Value of a run of decimal digits, most significant first. -/
def valorDigitos (l : List Char) : Int := l.foldl pasoDigito 0

/-- The spec's description of `M`-payload parsing (§4.4): an optional leading
`'+'` or `'-'` sign, followed by decimal digits, stopping at the first
non-digit; no digits after the optional sign yields 0.  Stated from the
spec's words, to be compared with `aEntero`. -/
def valorDecimal (p : List Char) : Int :=
  if getC p 0 = '-' then -(valorDigitos ((p.drop 1).takeWhile esDigito))
  else if getC p 0 = '+' then valorDigitos ((p.drop 1).takeWhile esDigito)
  else valorDigitos (p.takeWhile esDigito)

/-- `sonIguales(const char*, const char*)`: walk both strings while equal; on
NUL-free buffers this is list equality. -/
def sonIguales : List Char → List Char → Bool
  | [], [] => true
  | [], _ :: _ => false
  | _ :: _, [] => false
  | c :: cs, d :: ds => c = d && sonIguales cs ds

/-- The two frame variants of the protocol (`TramaLoad`, `TramaMap`). -/
inductive Trama where
  | load (caracter : Char)
  | map (rotacion : Int)
deriving DecidableEq

/-- `parsearTrama(char* linea)`: comma required at position 1; `'L'` builds a
`TramaLoad` of `linea[2]`, forced to `' '` when `linea[2..4]` reads `"Spa"`;
`'M'` builds a `TramaMap` of `aEntero(&linea[2])`; anything else is a
malformed frame (`nullptr`, here `none`). -/
def parsearTrama (linea : List Char) : Option Trama :=
  if getC linea 1 ≠ ',' then none
  else if getC linea 0 = 'L' then
    some (Trama.load
      (if getC linea 2 = 'S' ∧ getC linea 3 = 'p' ∧ getC linea 4 = 'a' then ' '
       else getC linea 2))
  else if getC linea 0 = 'M' then
    some (Trama.map (aEntero (linea.drop 2)))
  else none

/-- Shared mutable state of `main`: the `ListaDeCarga` contents (in order)
and the `RotorDeMapeo`. -/
structure Estado where
  carga : List Char
  rotor : RotorDeMapeo
deriving DecidableEq

/-- The state right after `main` constructs `miListaDeCarga` and
`miRotorDeMapeo`. -/
def estadoInicial : Estado := ⟨[], RotorDeMapeo.inicial⟩

/-- `TramaBase::procesar`: `TramaLoad::procesar` appends
`rotor->getMapeo(caracter)` to the load list; `TramaMap::procesar` calls
`rotor->rotar(rotacion)` and leaves the load list alone. -/
def procesarTrama : Trama → Estado → Estado
  | Trama.load c, s => { s with carga := s.carga ++ [s.rotor.getMapeo c] }
  | Trama.map n, s => { s with rotor := s.rotor.rotar n }

/-- The `FIN` termination sentinel line. -/
def lineaFIN : List Char := "FIN".toList

/-- The greeting control line. -/
def lineaSaludo : List Char := "SISTEMA PRT-7 ACTIVO".toList

/-- The `while (true)` loop of `main`, run over a list of read results
(`none` models `leerLineaSerial` returning `false`: no data / end of stream;
`some linea` models a line read).  The boolean records whether the `break` on
the `FIN` sentinel was reached; when the reads are exhausted without `FIN`
the real loop is still waiting (`false`).  A read with no data does nothing
(`if (hayDatos)` guards the whole body); `FIN` breaks; the greeting is
skipped; otherwise the line is parsed, a successful parse is processed and a
failed parse only prints an error. -/
def bucle : List (Option (List Char)) → Estado → Estado × Bool
  | [], s => (s, false)
  | lectura :: resto, s =>
    match lectura with
    | none => bucle resto s
    | some linea =>
      if sonIguales linea lineaFIN then (s, true)
      else if sonIguales linea lineaSaludo then bucle resto s
      else
        match parsearTrama linea with
        | some t => bucle resto (procesarTrama t s)
        | none => bucle resto s

/-- The closed form the spec gives for the rotated mapping (§4.1 note, §8):
`((c - 'A') + (n mod 26)) mod 26` mapped back to a letter.  The inner
remainder is the program's sign-preserving `n % 26` (`Int.tmod`); the outer
remainder must land in `0..25` to name a letter, so it is the Euclidean one.
Stated from the spec's words, to be compared with the ring walk. -/
def mapeoCerrado (c : Char) (n : Int) : Char :=
  Char.ofNat ('A'.toNat + ((((c.toNat : Int) - ('A'.toNat : Int)) + n.tmod 26) % 26).toNat)

/-! Helper lemmas about the ring walk and the truncating remainder. -/

theorem alfabeto_length : alfabeto.length = 26 := rfl

theorem alfabeto_getD : ∀ k, k < 26 → alfabeto.getD k 'A' = Char.ofNat (65 + k) := by decide

theorem sig_iter (k : Nat) : ∀ i : Nat, i < 26 → (sigIdx 26)^[k] i = (i + k) % 26 := by
  induction k with
  | zero => intro i h; simp [Nat.mod_eq_of_lt h]
  | succ k ih =>
    intro i h
    rw [Function.iterate_succ_apply, show sigIdx 26 i = (i + 1) % 26 from rfl,
      ih _ (Nat.mod_lt _ (by omega))]
    omega

theorem prev_iter (k : Nat) : ∀ i : Nat, i < 26 → (prevIdx 26)^[k] i = (i + 25 * k) % 26 := by
  induction k with
  | zero => intro i h; simp [Nat.mod_eq_of_lt h]
  | succ k ih =>
    intro i h
    rw [Function.iterate_succ_apply, show prevIdx 26 i = (i + 25) % 26 from rfl,
      ih _ (Nat.mod_lt _ (by omega))]
    omega

theorem tmod26_ofNat (m : Nat) : (Int.ofNat m).tmod 26 = ((m % 26 : Nat) : Int) := rfl

theorem tmod26_negSucc (m : Nat) :
    (Int.negSucc m).tmod 26 = -(((m + 1) % 26 : Nat) : Int) := rfl

theorem neg_tmod26 (n : Int) : (-n).tmod 26 = -(n.tmod 26) := by
  cases n with
  | ofNat m =>
    cases m with
    | zero => decide
    | succ k =>
      rw [show -(Int.ofNat (k + 1)) = Int.negSucc k from rfl, tmod26_negSucc, tmod26_ofNat]
  | negSucc m =>
    rw [show -(Int.negSucc m) = Int.ofNat (m + 1) from rfl, tmod26_ofNat, tmod26_negSucc,
      neg_neg]

theorem rotar_ring (r : RotorDeMapeo) (n : Int) : (r.rotar n).ring = r.ring := by
  unfold RotorDeMapeo.rotar
  split_ifs <;> rfl

theorem rotar_head (r : RotorDeMapeo) (n : Int) (hlen : r.ring.length = 26)
    (hh : r.head < 26) :
    (r.rotar n).head = (((r.head : Int) + n.tmod 26) % 26).toNat := by
  unfold RotorDeMapeo.rotar
  rw [hlen]
  simp only [Nat.cast_ofNat]
  rw [if_neg (show ¬(26 = 0) by omega)]
  cases n with
  | ofNat m =>
    rw [tmod26_ofNat]
    have hk : m % 26 < 26 := Nat.mod_lt _ (by omega)
    by_cases h0 : 0 < m % 26
    · rw [if_pos (by exact_mod_cast h0)]
      dsimp only
      simp only [Int.toNat_ofNat]
      rw [sig_iter _ _ hh]
      omega
    · have hz : m % 26 = 0 := by omega
      rw [hz]
      norm_num
      omega
  | negSucc m =>
    rw [tmod26_negSucc]
    have hk : (m + 1) % 26 < 26 := Nat.mod_lt _ (by omega)
    by_cases h0 : 0 < (m + 1) % 26
    · rw [if_neg (by omega), if_pos (by omega)]
      dsimp only
      simp only [neg_neg, Int.toNat_ofNat]
      rw [prev_iter _ _ hh]
      omega
    · have hz : (m + 1) % 26 = 0 := by omega
      rw [hz]
      norm_num
      omega

theorem rotar_head_lt (r : RotorDeMapeo) (n : Int) (hlen : r.ring.length = 26)
    (hh : r.head < 26) : (r.rotar n).head < 26 := by
  rw [rotar_head r n hlen hh]
  omega

theorem rotar_tmod_cero (r : RotorDeMapeo) (n : Int) (hlen : r.ring.length = 26)
    (h : n.tmod 26 = 0) : r.rotar n = r := by
  unfold RotorDeMapeo.rotar
  rw [hlen]
  simp only [Nat.cast_ofNat]
  rw [if_neg (show ¬(26 = 0) by omega), h]
  norm_num

theorem getMapeo_eq (r : RotorDeMapeo) (c : Char) (hring : r.ring = alfabeto)
    (hh : r.head < 26) (h1 : 'A' ≤ c) (h2 : c ≤ 'Z') :
    r.getMapeo c = Char.ofNat (65 + (r.head + (c.toNat - 65)) % 26) := by
  have hA : 65 ≤ c.toNat := h1
  have hZ : c.toNat ≤ 90 := h2
  unfold RotorDeMapeo.getMapeo
  rw [if_neg (by
    rintro (h | h)
    · exact absurd (show c.toNat < 65 from h) (by omega)
    · exact absurd (show 90 < c.toNat from h) (by omega))]
  rw [hring, alfabeto_length, show ('A'.toNat : Nat) = 65 from rfl,
    sig_iter _ _ hh, alfabeto_getD _ (Nat.mod_lt _ (by omega))]

theorem rotarLista_inv : ∀ (ns : List Int) (r : RotorDeMapeo), r.ring = alfabeto →
    r.head < 26 → (rotarLista r ns).ring = alfabeto ∧ (rotarLista r ns).head < 26 := by
  intro ns
  induction ns with
  | nil => intro r h1 h2; exact ⟨h1, h2⟩
  | cons n resto ih =>
    intro r h1 h2
    have hlen : r.ring.length = 26 := by rw [h1]; rfl
    exact ih (r.rotar n) (by rw [rotar_ring, h1]) (rotar_head_lt r n hlen h2)

theorem aEnteroDigitos_eq : ∀ (l : List Char) (acc : Int),
    aEnteroDigitos l acc = (l.takeWhile esDigito).foldl pasoDigito acc := by
  intro l
  induction l with
  | nil => intro acc; rfl
  | cons c resto ih =>
    intro acc
    by_cases h : '0' ≤ c ∧ c ≤ '9'
    · simp [aEnteroDigitos, if_pos h, List.takeWhile_cons,
        show esDigito c = true by simp [esDigito, h], ih]
    · simp [aEnteroDigitos, if_neg h, List.takeWhile_cons,
        show esDigito c = false by simp [esDigito, h]]

theorem aEntero_eq_valorDecimal (p : List Char) : aEntero p = valorDecimal p := by
  unfold aEntero valorDecimal valorDigitos
  split_ifs <;> rw [aEnteroDigitos_eq]

/-! The claim theorems. -/

/-- Claim C1: for every uppercase letter `c` and every integer `n`, rotating
the initial rotor by `n` and then mapping `c` equals the closed form
`((c - 'A') + (n mod 26)) mod 26` mapped back to a letter (`mapeoCerrado`);
and for every head position the literal ring walk equals the Caesar-style
closed form, so ring walk and closed form agree on all (head, input) pairs. -/
theorem rotar_getMapeo_forma_cerrada (c : Char) (n : Int)
    (h1 : 'A' ≤ c) (h2 : c ≤ 'Z') :
    (RotorDeMapeo.inicial.rotar n).getMapeo c = mapeoCerrado c n ∧
    (∀ h : Nat, h < 26 →
      (RotorDeMapeo.mk alfabeto h).getMapeo c =
        Char.ofNat ('A'.toNat + (((c.toNat - 'A'.toNat) + h) % 26))) := by
  have hA : 65 ≤ c.toNat := h1
  have hZ : c.toNat ≤ 90 := h2
  have eA : ('A'.toNat : Nat) = 65 := rfl
  constructor
  · have hlen : RotorDeMapeo.inicial.ring.length = 26 := rfl
    have hh : RotorDeMapeo.inicial.head < 26 := by decide
    have hring1 : (RotorDeMapeo.inicial.rotar n).ring = alfabeto := rotar_ring _ n
    have hh1 : (RotorDeMapeo.inicial.rotar n).head < 26 := rotar_head_lt _ n hlen hh
    rw [getMapeo_eq _ c hring1 hh1 h1 h2, rotar_head _ n hlen hh,
      show RotorDeMapeo.inicial.head = 0 from rfl]
    unfold mapeoCerrado
    rw [eA]
    congr 1
    omega
  · intro h hlt
    rw [getMapeo_eq ⟨alfabeto, h⟩ c rfl hlt h1 h2, eA]
    congr 1
    dsimp only
    omega

/-- Claim C1 witness at `c = 'C'`, `n = -30`. -/
theorem rotar_getMapeo_forma_cerrada_witness :
    ('A' ≤ 'C' ∧ 'C' ≤ 'Z') ∧
    (RotorDeMapeo.inicial.rotar (-30)).getMapeo 'C' = mapeoCerrado 'C' (-30) :=
  ⟨⟨by decide, by decide⟩,
    (rotar_getMapeo_forma_cerrada 'C' (-30) (by decide) (by decide)).1⟩

/-- Claim C2 counterexample: a read with no data (end of stream) is NOT
treated like the `FIN` sentinel.  After the single read result `none` the
loop has not reached the `break` (second component `false`, it keeps
waiting), while after reading `FIN` it has (`true`). -/
theorem finDeFlujo_no_termina_bucle :
    (bucle [Option.none] estadoInicial).2 = false ∧
    (bucle [some lineaFIN] estadoInicial).2 = true :=
  ⟨rfl, rfl⟩

/-- Claim C2 (amended): a read that yields no data (end of stream or
timeout) is ignored — the loop neither terminates nor changes state, it just
issues the next read; only the `FIN` sentinel stops the loop and leads to the
final message. -/
theorem finDeFlujo_lectura_ignorada :
    (∀ (resto : List (Option (List Char))) (s : Estado),
      bucle (Option.none :: resto) s = bucle resto s) ∧
    (∀ (resto : List (Option (List Char))) (s : Estado),
      bucle (some lineaFIN :: resto) s = (s, true)) :=
  ⟨fun _ _ => rfl, fun _ _ => rfl⟩

/-- Claim C3: `rotar n` moves the head by the sign-preserving truncating
remainder `n.tmod 26` (forward when positive, backward when negative, which
on head indices is addition of `n.tmod 26` followed by the Euclidean wrap
into `0..25`), it is a no-op whenever that remainder is 0, and in particular
`rotar 26` and `rotar 0` change nothing, so `getCabeza` is unchanged. -/
theorem rotar_resto_truncado (r : RotorDeMapeo) (n : Int)
    (hlen : r.ring.length = 26) (hh : r.head < 26) :
    (r.rotar n).head = (((r.head : Int) + n.tmod 26) % 26).toNat ∧
    (n.tmod 26 = 0 → r.rotar n = r) ∧
    r.rotar 26 = r ∧ r.rotar 0 = r ∧
    (r.rotar 26).getCabeza = r.getCabeza ∧ (r.rotar 0).getCabeza = r.getCabeza := by
  have h26 : (26 : Int).tmod 26 = 0 := by decide
  have h0 : (0 : Int).tmod 26 = 0 := by decide
  refine ⟨rotar_head r n hlen hh, fun h => rotar_tmod_cero r n hlen h,
    rotar_tmod_cero r 26 hlen h26, rotar_tmod_cero r 0 hlen h0, ?_, ?_⟩
  · rw [rotar_tmod_cero r 26 hlen h26]
  · rw [rotar_tmod_cero r 0 hlen h0]

/-- Claim C3 witness at the initial rotor and `n = -5`. -/
theorem rotar_resto_truncado_witness :
    RotorDeMapeo.inicial.ring.length = 26 ∧
    (RotorDeMapeo.inicial.rotar (-5)).head =
      (((RotorDeMapeo.inicial.head : Int) + (-5 : Int).tmod 26) % 26).toNat :=
  ⟨rfl, (rotar_resto_truncado RotorDeMapeo.inicial (-5) rfl (by decide)).1⟩

/-- Claim C7: rotating by `n` and then by `-n` restores the head symbol, for
every integer `n` and every rotor state of the program (26-node ring, head on
a node). -/
theorem rotar_inversa_restaura_cabeza (r : RotorDeMapeo) (n : Int)
    (hlen : r.ring.length = 26) (hh : r.head < 26) :
    ((r.rotar n).rotar (-n)).getCabeza = r.getCabeza := by
  have hlen1 : (r.rotar n).ring.length = 26 := by rw [rotar_ring, hlen]
  have hh1 : (r.rotar n).head < 26 := rotar_head_lt r n hlen hh
  have e1 := rotar_head r n hlen hh
  have e2 := rotar_head (r.rotar n) (-n) hlen1 hh1
  rw [neg_tmod26] at e2
  have eh : ((r.rotar n).rotar (-n)).head = r.head := by
    rw [e2, e1]
    omega
  unfold RotorDeMapeo.getCabeza
  rw [rotar_ring, rotar_ring, eh]

/-- Claim C7 witness at the initial rotor and `n = 7`. -/
theorem rotar_inversa_restaura_cabeza_witness :
    ((RotorDeMapeo.inicial.rotar 7).rotar (-7)).getCabeza =
      RotorDeMapeo.inicial.getCabeza :=
  rotar_inversa_restaura_cabeza RotorDeMapeo.inicial 7 rfl (by decide)

/-- Claim C8: `getMapeo` is the identity on every character outside
`'A'..'Z'`, for every rotor state whatsoever (in particular every state
reachable by rotations). -/
theorem getMapeo_identidad_no_mayuscula (r : RotorDeMapeo) (c : Char)
    (h : c < 'A' ∨ 'Z' < c) : r.getMapeo c = c := by
  unfold RotorDeMapeo.getMapeo
  rw [if_pos h]

/-- Claim C8 witness on a reachable state and the character `'!'`. -/
theorem getMapeo_identidad_no_mayuscula_witness :
    ('!' < 'A' ∨ 'Z' < '!') ∧
    (rotarLista RotorDeMapeo.inicial [3, -5]).getMapeo '!' = '!' :=
  ⟨by decide, getMapeo_identidad_no_mayuscula _ '!' (by decide)⟩

/-- Claim C9: the rotor of the program always holds exactly the 26 symbols
`'A'..'Z'` in their original ring order: the constructor creates that ring,
every state reachable by any sequence of rotations still has ring `alfabeto`
(length 26) with the head on one of its nodes, and `rotar` never changes the
ring — only the head marker moves (`getMapeo` and `getCabeza` read the state
without producing a new one). -/
theorem invariante_anillo_rotor : ∀ ns : List Int,
    (rotarLista RotorDeMapeo.inicial ns).ring = alfabeto ∧
    (rotarLista RotorDeMapeo.inicial ns).ring.length = 26 ∧
    (rotarLista RotorDeMapeo.inicial ns).head < 26 ∧
    RotorDeMapeo.inicial.ring = "ABCDEFGHIJKLMNOPQRSTUVWXYZ".toList ∧
    (∀ (r : RotorDeMapeo) (n : Int), (r.rotar n).ring = r.ring) := by
  intro ns
  obtain ⟨ha, hb⟩ := rotarLista_inv ns RotorDeMapeo.inicial rfl (by decide)
  exact ⟨ha, by rw [ha]; rfl, hb, rfl, rotar_ring⟩

/-- Claim C10: processing a `Map` frame leaves the accumulator untouched and
processing a `Load` frame leaves the rotor untouched: each frame variant
mutates only its own target structure. -/
theorem efectos_trama_separados (s : Estado) (n : Int) (c : Char) :
    (procesarTrama (Trama.map n) s).carga = s.carga ∧
    (procesarTrama (Trama.load c) s).rotor = s.rotor :=
  ⟨rfl, rfl⟩

/-- Claim C4: a line `L,<payload>` parses to a `Load` frame; the decoded
character is the space character when the payload begins with the three
characters `"Spa"` (whatever follows), and otherwise exactly the character
right after the comma. -/
theorem parsearTrama_load_espacio (c : Char) (p : List Char) :
    parsearTrama ('L' :: ',' :: c :: p) =
      some (Trama.load (if (c :: p).take 3 = ['S', 'p', 'a'] then ' ' else c)) := by
  have hred : parsearTrama ('L' :: ',' :: c :: p) =
      some (Trama.load (if c = 'S' ∧ getC p 0 = 'p' ∧ getC p 1 = 'a' then ' '
        else c)) := rfl
  rw [hred]
  have hiff : (c = 'S' ∧ getC p 0 = 'p' ∧ getC p 1 = 'a') ↔
      ((c :: p).take 3 = ['S', 'p', 'a']) := by
    cases p with
    | nil => simp [getC, show Char.ofNat 0 ≠ 'p' from by decide]
    | cons d q =>
      cases q with
      | nil => simp [getC, show Char.ofNat 0 ≠ 'a' from by decide]
      | cons e t => simp [getC]
  rw [if_congr hiff rfl rfl]

/-- Claim C5: a line `M,<payload>` parses to a `Map` frame whose rotation is
`aEntero payload`, and `aEntero` implements exactly the spec's manual
parse (`valorDecimal`): optional `'+'`/`'-'` sign, then decimal digits,
stopping at the first non-digit; a payload with no digits after the optional
sign yields 0 and is not a parse failure. -/
theorem parsearTrama_map_entero (p : List Char) :
    parsearTrama ('M' :: ',' :: p) = some (Trama.map (aEntero p)) ∧
    aEntero p = valorDecimal p ∧
    aEntero [] = 0 ∧ aEntero ['+'] = 0 ∧ aEntero ['-'] = 0 :=
  ⟨rfl, aEntero_eq_valorDecimal p, rfl, rfl, rfl⟩

/-- Claim C6: the parser fails (no frame, `none`) exactly when position 1 is
not a comma or the type character is neither `'L'` nor `'M'`; `"X,5"` and
`"LA"` are such failures, and on a failed parse the loop iteration reports
the malformed frame and leaves the state (rotor and accumulator) unchanged. -/
theorem parsearTrama_fallo (l : List Char) :
    (parsearTrama l = none ↔
      getC l 1 ≠ ',' ∨ (getC l 0 ≠ 'L' ∧ getC l 0 ≠ 'M')) ∧
    parsearTrama ("X,5".toList) = none ∧ parsearTrama ("LA".toList) = none ∧
    (∀ (s : Estado) (resto : List (Option (List Char))),
      parsearTrama l = none → sonIguales l lineaFIN = false →
      sonIguales l lineaSaludo = false →
      bucle (some l :: resto) s = bucle resto s) := by
  refine ⟨?_, rfl, rfl, ?_⟩
  · unfold parsearTrama
    split_ifs with h1 h2 h3 <;> simp_all
  · intro s resto hp hf hs
    simp only [bucle, hp, if_neg (show ¬(sonIguales l lineaFIN = true) by simp [hf]),
      if_neg (show ¬(sonIguales l lineaSaludo = true) by simp [hs])]

/-- Claim C6 witness: the malformed line `"X,5"` leaves the loop state
exactly as it was. -/
theorem parsearTrama_fallo_witness :
    bucle [some ("X,5".toList)] estadoInicial = bucle [] estadoInicial :=
  (parsearTrama_fallo ("X,5".toList)).2.2.2 estadoInicial []
    (by decide) (by decide) (by decide)
